import Mathlib

/-!
Verification development for the gradient-oriented convolution layer
(`src/caffe/src/caffe/layers/grad_orient_conv_layer.cpp` and its header).

Blobs are dense 4-axis arrays indexed (n, c, h, w); a flat offset of
element (n, c, h, w) in a blob of shape (N, C, H, W) is
((n * C + c) * H + h) * W + w, which is what `Blob::offset` computes.
Floating-point values are modelled as real numbers, machine integers as
`Nat`/`Int` (C++ `int` arithmetic in the modelled ranges never overflows).
-/

namespace GradOrientConv

/-! ### Gaussian stencil (LayerSetUp, lines 200-217) -/

/-- The sigma of the Gaussian stencil: `double sigma = (kernel_w+kernel_h)/Dtype(12)`. -/
noncomputable def gaussSigma (kh kw : ℕ) : ℝ := ((kw : ℝ) + (kh : ℝ)) / 12

/-- One un-normalized entry of the Gaussian stencil, exactly as LayerSetUp fills it:
`exp(-(pow((h - kernel_h/2.0),2) + pow((w - kernel_w/2.0),2)) / (2.0*sigma*sigma))
 / (2 * 3.14159 * sigma * sigma)`. -/
noncomputable def gaussRaw (kh kw h w : ℕ) : ℝ :=
  Real.exp (-(((h : ℝ) - (kh : ℝ) / 2) ^ 2 + ((w : ℝ) - (kw : ℝ) / 2) ^ 2) /
      (2 * gaussSigma kh kw * gaussSigma kh kw)) /
    (2 * 3.14159 * gaussSigma kh kw * gaussSigma kh kw)

/-- The running total `gauss_sum` accumulated over all `kernel_h * kernel_w` entries. -/
noncomputable def gaussSumRaw (kh kw : ℕ) : ℝ :=
  ∑ h in Finset.range kh, ∑ w in Finset.range kw, gaussRaw kh kw h w

/-- The stored stencil after `caffe_scal(count, 1.0/gauss_sum, gaussian)`:
every entry divided by the total. -/
noncomputable def gaussKernel (kh kw h w : ℕ) : ℝ := gaussRaw kh kw h w / gaussSumRaw kh kw

/-! ### Rotated-kernel index arithmetic (Reshape, lines 321-345) -/

/-- The flat index (within one `K × K` kernel plane) that the rotated-kernel fill reads
for destination position `q = h*K + w`, for each of the four quadrants:
quadrant 0 reads `h*K + w`; quadrant 1 reads `w*shape(3) + shape(2) - h`;
quadrant 2 reads `(shape(2)-h)*shape(3) + shape(3) - w`; quadrant 3 reads
`(shape(3)-w)*shape(3) + h`, where `shape(2) = shape(3) = K` (kernels are square). -/
def rotIndex (K q h w : ℕ) : ℕ :=
  if q = 0 then h * K + w
  else if q = 1 then w * K + (K - h)
  else if q = 2 then (K - h) * K + (K - w)
  else (K - w) * K + h

/-! ### Intermediate-kernel container setup (LayerSetUp, lines 150-193) -/

/-- The contents of `intermediate_kernels_` after `LayerSetUp`.  The vector starts
empty; the loop `for (i < num_rotations_) intermediate_kernels_.pushback(*blob_[0])`
sits inside the `else` branch of `if (this->blobs_.size() > 0)`, i.e. it runs only
when the parameter blobs are freshly initialized, not on the reload path. -/
def setupIntermediateKernels {α : Type} (numRotations : ℕ) (paramsAlreadyPresent : Bool)
    (weightBlob : α) : List α :=
  if paramsAlreadyPresent then [] else List.replicate numRotations weightBlob

/-! ### Reshape shape checks and top shaping (Reshape, lines 229-256) -/

/-- Shape of a 4-axis blob: (num, channels, height, width). -/
structure BlobShape where
  n : ℕ
  c : ℕ
  h : ℕ
  w : ℕ

/-- The `Reshape` entry checks and top-blob shaping, with `CHECK_EQ` failures modelled
as `Except.error` carrying the check's message.  The checks (bottom channel count
against `channels_`, equal heights, widths and nums of the two bottoms, and the
gradient bottom having exactly 2 channels) all run before any top blob is shaped.
Output spatial extent follows `compute_output_shape`:
`(input_dim + 2*pad - kernel) / stride + 1` in C++ `int` arithmetic
(truncating division), clamped to `ℕ` for use as a shape. -/
def reshapeTops (channels_ numOutput kernel stride pad : ℕ) (b0 b1 : BlobShape) :
    Except String (BlobShape × BlobShape × BlobShape) :=
  if b0.c ≠ channels_ then .error "Input size incompatible with convolution kernel."
  else if b0.h ≠ b1.h then .error "both bottoms ought to have the same height."
  else if b0.w ≠ b1.w then .error "both bottoms ought to have the same width."
  else if b0.n ≠ b1.n then .error "both bottoms ought to have the same num."
  else if b1.c ≠ 2 then .error "gradient map would have 2 channels, Gx and Gy."
  else
    let oh : ℕ := (((b0.h : ℤ) + 2 * pad - kernel).tdiv stride + 1).toNat
    let ow : ℕ := (((b0.w : ℤ) + 2 * pad - kernel).tdiv stride + 1).toNat
    .ok (⟨b0.n, numOutput, oh, ow⟩, ⟨b0.n, 2, oh, ow⟩, ⟨b0.n, 2, oh, ow⟩)

/-! ### The channel-plane walk of GaussConvolveHelper (lines 372-392) -/

/-- The flat channel-plane indices that `GaussConvolveHelper` reads from its input blob.
The input pointer starts at plane 0 and is advanced by `in.offset(0,1)` (one `H*W`
plane) after each iteration of the channel loop `for (c = 0; c < channels_; ++c)`,
and is never reset between batch iterations, so during batch item `n` and channel
iteration `c` it sits on plane `n * channels_ + c` of the input blob.  The input blob
(`bottom[1]`) has `2` channels, i.e. `N * 2` planes in total. -/
def gaussHelperReadPlanes (N channels_ : ℕ) : List ℕ :=
  (List.range N).flatMap fun n => (List.range channels_).map fun c => n * channels_ + c

/-! ### Gaussian smoother inner loops (GaussConvolveHelper, lines 374-388) -/

/-- One output location of `GaussConvolveHelper` on one channel plane, exactly as the
code computes it: `hstart = ph*stride_h - pad_h` (and likewise `wstart`),
`hend = min(hstart + kernel_h, H)` computed from the un-clipped start, then
`hstart = max(hstart, 0)`, and the accumulation
`out += gaussian[(h-hstart)*kernel_w + (w-wstart)] * in[h*W + w]` over
`h in [hstart, hend) x w in [wstart, wend)` — note the stencil offsets use the
CLIPPED `hstart`/`wstart`.  `Int.toNat` realizes both `max(., 0)` for the start and
the empty loop when the end is non-positive. -/
noncomputable def gaussConvAt (K stride pad H W : ℕ) (inPlane : ℕ → ℕ → ℝ)
    (ph pw : ℕ) : ℝ :=
  let hstart : ℤ := (ph * stride : ℕ) - (pad : ℤ)
  let wstart : ℤ := (pw * stride : ℕ) - (pad : ℤ)
  let hs : ℕ := hstart.toNat
  let ws : ℕ := wstart.toNat
  let he : ℕ := (min (hstart + K) (H : ℤ)).toNat
  let we : ℕ := (min (wstart + K) (W : ℤ)).toNat
  ∑ h in Finset.Ico hs he, ∑ w in Finset.Ico ws we,
    gaussKernel K K (h - hs) (w - ws) * inPlane h w

/-- Following the spec's words (section 4.3): the same windowed sum, but with "the
stencil indices ... taken relative to the window's un-clipped start", i.e. the
Gaussian offset of input row `h` is `h - hstart` with the UN-clipped
`hstart = ph*stride - pad`. -/
noncomputable def gaussConvAtSpecStencil (K stride pad H W : ℕ) (inPlane : ℕ → ℕ → ℝ)
    (ph pw : ℕ) : ℝ :=
  let hstart : ℤ := (ph * stride : ℕ) - (pad : ℤ)
  let wstart : ℤ := (pw * stride : ℕ) - (pad : ℤ)
  let hs : ℕ := hstart.toNat
  let ws : ℕ := wstart.toNat
  let he : ℕ := (min (hstart + K) (H : ℤ)).toNat
  let we : ℕ := (min (wstart + K) (W : ℤ)).toNat
  ∑ h in Finset.Ico hs he, ∑ w in Finset.Ico ws we,
    gaussKernel K K ((h - hstart).toNat) ((w - wstart).toNat) * inPlane h w

/-! ### Orientation extraction (Forward_cpu, lines 417-443) -/

/-- Modelled from the spec: `caffe_atan2` (the layer's elementwise four-quadrant
arctangent collaborator, not under src/) — "four-quadrant arctangent(vertical
component, horizontal component), range (-pi, pi]", "angle 0 along positive
horizontal axis, increasing counter-clockwise" (the C `atan2(y, x)` convention). -/
noncomputable def atan2 (y x : ℝ) : ℝ :=
  if 0 < x then Real.arctan (y / x)
  else if x < 0 then
    (if 0 ≤ y then Real.arctan (y / x) + Real.pi else Real.arctan (y / x) - Real.pi)
  else
    (if 0 < y then Real.pi / 2 else if y < 0 then -(Real.pi / 2) else 0)

/-- Orientation-map fill (Forward_cpu, lines 420-430): `top2_x` starts at channel 0 of
`top[2]`, `top2_y` at channel 1 (`top[2]->offset(0,1)`), both advanced by
`top[2]->offset(1)` (one two-channel batch item) per batch iteration, while the
orientation pointer advances by one single-channel batch item; so the orientation at
(n, h, w) is `atan2` of the channel-1 (vertical) and channel-0 (horizontal) smoothed
gradients at the same (n, h, w). -/
noncomputable def orientationMapAt (top2 : ℕ → ℕ → ℕ → ℕ → ℝ) (n h w : ℕ) : ℝ :=
  atan2 (top2 n 1 h w) (top2 n 0 h w)

/-- Sine/cosine side-output fill (Forward_cpu, lines 432-443): `caffe_sin` writes into
`top1_0` (channel 0 of `top[1]`), `caffe_cos` into `top1_1` (channel 1, at
`top[1]->offset(0,1)`), both reading the orientation map at the same batch item. -/
noncomputable def sincosTop1At (top2 : ℕ → ℕ → ℕ → ℕ → ℝ) (n c h w : ℕ) : ℝ :=
  if c = 0 then Real.sin (orientationMapAt top2 n h w)
  else Real.cos (orientationMapAt top2 n h w)

/-! ### Alpha-field fill (Forward_cpu, lines 445-490) -/

/-- Degree conversion used by the alpha fill: `Dtype angle = 180. * orient[q] / M_PI`. -/
noncomputable def angleDeg (orient : ℝ) : ℝ := 180 * orient / Real.pi

/-- One spatial location of the alpha-field fill.  `prev` is the content the four
alpha channels already hold at this location (the buffer is never zeroed by the
forward pass; only the bracket's two active channels are assigned): for
`angle in [-180,-90)` channels 2,3 get `1-wght, wght` with `wght = (angle+180)/90`;
for `[-90,0)` channels 3,0; for `[0,90)` channels 0,1; for `[90,180]` channels 1,2;
any other angle leaves all four channels untouched. -/
noncomputable def alphaFillAt (angle : ℝ) (prev : Fin 4 → ℝ) : Fin 4 → ℝ :=
  if -180 ≤ angle ∧ angle < -90 then
    fun i => if i = 2 then 1 - (angle + 180) / 90
      else if i = 3 then (angle + 180) / 90 else prev i
  else if -90 ≤ angle ∧ angle < 0 then
    fun i => if i = 3 then 1 - (angle + 90) / 90
      else if i = 0 then (angle + 90) / 90 else prev i
  else if 0 ≤ angle ∧ angle < 90 then
    fun i => if i = 0 then 1 - angle / 90
      else if i = 1 then angle / 90 else prev i
  else if 90 ≤ angle ∧ angle ≤ 180 then
    fun i => if i = 1 then 1 - (angle - 90) / 90
      else if i = 2 then (angle - 90) / 90 else prev i
  else prev

/-! ### Dense convolution primitive and the primary-output write (Forward_cpu, 492-536) -/

/-- Zero-padded read of an input plane at signed coordinates (the convolution
primitive's implicit padding). -/
def padRead (H W : ℕ) (f : ℕ → ℕ → ℝ) (h w : ℤ) : ℝ :=
  if 0 ≤ h ∧ h < (H : ℤ) ∧ 0 ≤ w ∧ w < (W : ℤ) then f h.toNat w.toNat else 0

/-- Modelled from the spec: the shared dense-convolution primitive
`forward_cpu_gemm` (inherited from the base convolution layer, not under src/) —
"the standard im2col + matrix-multiply formulation" of dense 2D convolution with
implicit zero padding, written here for group count 1: output channel `co` at
location (ph, pw) sums `weight[co][ci][kh][kw] * input[ci][ph*stride-pad+kh][pw*stride-pad+kw]`
over input channels and kernel offsets. -/
noncomputable def denseConvAt (K stride pad H W Cin : ℕ)
    (weight : ℕ → ℕ → ℕ → ℕ → ℝ) (inp : ℕ → ℕ → ℕ → ℝ) (co ph pw : ℕ) : ℝ :=
  ∑ ci in Finset.range Cin, ∑ kh in Finset.range K, ∑ kw in Finset.range K,
    weight co ci kh kw *
      padRead H W (inp ci) ((ph * stride : ℕ) - (pad : ℤ) + kh)
        ((pw * stride : ℕ) - (pad : ℤ) + kw)

/-- The value Forward_cpu actually writes into `top[0]` for one batch item: the loop
over the four rotated kernels stores its per-rotation products in the function-local
`intermediate_results`, which is never read afterwards (its blend body is unfinished
pseudo-code), and the only write to `top[0]` is
`forward_cpu_gemm(bottom_data + n*bottom_dim_, weight, top_data + n*top_dim_)` with
`weight = this->blobs_[0]->cpu_data()` — the un-rotated base kernel — followed by
the optional bias broadcast. -/
noncomputable def forwardTop0At (K stride pad H W Cin : ℕ)
    (weight : ℕ → ℕ → ℕ → ℕ → ℝ) (bias : ℕ → ℝ) (biasTerm : Bool)
    (inp : ℕ → ℕ → ℕ → ℝ) (co ph pw : ℕ) : ℝ :=
  denseConvAt K stride pad H W Cin weight inp co ph pw +
    (if biasTerm then bias co else 0)

/-- Modelled from the spec (section 4.5): quarter-turn rotation of a `K × K` kernel
plane as a pure index permutation, `rotated[h, w] = original[w, K-1-h]`. -/
def specRotate90 (K : ℕ) (f : ℕ → ℕ → ℝ) : ℕ → ℕ → ℝ := fun h w => f w (K - 1 - h)

/-- Modelled from the spec: quadrant `q` rotation = `q` quarter turns. -/
def specRotQ (K : ℕ) : ℕ → (ℕ → ℕ → ℝ) → (ℕ → ℕ → ℝ)
  | 0, f => f
  | q + 1, f => specRotate90 K (specRotQ K q f)

/-- Following the spec's words (section 4.7): the blended primary output — each
rotated kernel's dense-convolution response scaled by its alpha channel at this
location, the four scaled responses summed, plus the optional bias. -/
noncomputable def specBlendTop0At (K stride pad H W Cin : ℕ)
    (weight : ℕ → ℕ → ℕ → ℕ → ℝ) (bias : ℕ → ℝ) (biasTerm : Bool)
    (inp : ℕ → ℕ → ℕ → ℝ) (alpha : Fin 4 → ℝ) (co ph pw : ℕ) : ℝ :=
  (∑ q : Fin 4, alpha q *
      denseConvAt K stride pad H W Cin
        (fun co2 ci => specRotQ K q.val (weight co2 ci)) inp co ph pw) +
    (if biasTerm then bias co else 0)

/-! ### Concrete forward-pass instance for claim C1: one batch item, one input
channel, 2x2 input, 2x2 kernel, stride 1, pad 0, no bias. -/

/-- Concrete input plane: a single 5 at (1, 1), zero elsewhere. -/
noncomputable def exInput : ℕ → ℕ → ℕ → ℝ := fun _ h w => if h = 1 ∧ w = 1 then 5 else 0

/-- Concrete 2x2 base kernel: weight 1 at spatial position (0, 0), zero elsewhere. -/
noncomputable def exKernel : ℕ → ℕ → ℕ → ℕ → ℝ := fun _ _ kh kw =>
  if kh = 0 ∧ kw = 0 then 1 else 0

/-- Concrete constant gradient field: horizontal component -1, vertical component 0. -/
noncomputable def exGradPlane (c : ℕ) : ℕ → ℕ → ℝ := fun _ _ => if c = 0 then -1 else 0

/-- The smoothed gradient channel values the forward pass computes on this instance
(the single output location (0, 0)). -/
noncomputable def exSmooth (c : ℕ) : ℝ := gaussConvAt 2 1 0 2 2 (exGradPlane c) 0 0

/-- The orientation the forward pass computes on this instance. -/
noncomputable def exOrient : ℝ := atan2 (exSmooth 1) (exSmooth 0)

/-- The alpha weights the forward pass computes at the (only) output location,
starting from the zero-initialized alpha buffer. -/
noncomputable def exAlpha : Fin 4 → ℝ := alphaFillAt (angleDeg exOrient) (fun _ => 0)

/-! ### Backward pass (Backward_cpu, lines 539-570) -/

/-- The bias-gradient accumulation of Backward_cpu as written: the outer loop
`for (i = 0; i < top.size(); ++i)` runs over ALL tops (this layer shapes 3 of them),
and for each one, for each batch item `n`, it calls
`backward_cpu_bias(bias_diff, top_diff + n * top_dim_)` — the spec-modelled
`backward_cpu_bias` (not under src/) adds, for output channel `c`, the sum over
spatial positions `s` of the block's entry `c * spatial + s` — where
`top_dim_ = top[0]->count(1) = numOutput * spatial` is used as the batch stride for
every top.  `topDiff i` is the flat gradient buffer of top `i`. -/
noncomputable def codeBiasGrad (numTops num_ numOutput spatial : ℕ)
    (topDiff : ℕ → ℕ → ℝ) (c : ℕ) : ℝ :=
  ∑ i in Finset.range numTops, ∑ n in Finset.range num_, ∑ s in Finset.range spatial,
    topDiff i (n * (numOutput * spatial) + c * spatial + s)

/-- Following the claim and spec section 4.8: the bias gradient accumulates only the
primary output's (top[0]'s) gradients over batch and spatial positions. -/
noncomputable def specBiasGrad (num_ numOutput spatial : ℕ)
    (topDiff : ℕ → ℕ → ℝ) (c : ℕ) : ℝ :=
  ∑ n in Finset.range num_, ∑ s in Finset.range spatial,
    topDiff 0 (n * (numOutput * spatial) + c * spatial + s)

/-- The same backward loop indexes `bottom[i]` and `propagate_down[i]` for every top
index `i`; those container accesses are in range only if every top index is below
the bottom count. -/
def backwardBottomAccessOk (numTops numBottoms : ℕ) : Prop :=
  ∀ i, i < numTops → i < numBottoms

/-! ### Helper lemmas -/

lemma gaussSigma_pos {kh kw : ℕ} (hh : 0 < kh) : 0 < gaussSigma kh kw := by
  unfold gaussSigma
  have h1 : (0 : ℝ) < (kh : ℝ) := by exact_mod_cast hh
  have h2 : (0 : ℝ) ≤ (kw : ℝ) := Nat.cast_nonneg kw
  exact div_pos (by linarith) (by norm_num)

lemma gaussDenom_pos {kh kw : ℕ} (hh : 0 < kh) :
    0 < 2 * 3.14159 * gaussSigma kh kw * gaussSigma kh kw := by
  have hs := @gaussSigma_pos kh kw hh
  exact mul_pos (mul_pos (by norm_num) hs) hs

lemma gaussRaw_pos {kh kw : ℕ} (hh : 0 < kh) (h w : ℕ) : 0 < gaussRaw kh kw h w :=
  div_pos (Real.exp_pos _) (gaussDenom_pos hh)

lemma gaussSumRaw_pos {kh kw : ℕ} (hh : 0 < kh) (hw : 0 < kw) : 0 < gaussSumRaw kh kw := by
  unfold gaussSumRaw
  refine Finset.sum_pos (fun h _ => Finset.sum_pos (fun w _ => gaussRaw_pos hh h w) ?_) ?_
  · exact Finset.nonempty_range_iff.mpr hw.ne'
  · exact Finset.nonempty_range_iff.mpr hh.ne'

/-- Shared helper: the normalized stencil entries sum to one. -/
lemma sum_gaussKernel_eq_one {kh kw : ℕ} (hh : 0 < kh) (hw : 0 < kw) :
    ∑ h in Finset.range kh, ∑ w in Finset.range kw, gaussKernel kh kw h w = 1 := by
  unfold gaussKernel
  calc ∑ h in Finset.range kh, ∑ w in Finset.range kw, gaussRaw kh kw h w / gaussSumRaw kh kw
      = ∑ h in Finset.range kh,
          (∑ w in Finset.range kw, gaussRaw kh kw h w) / gaussSumRaw kh kw :=
        Finset.sum_congr rfl fun h _ => (Finset.sum_div _ _ _).symm
    _ = (∑ h in Finset.range kh, ∑ w in Finset.range kw, gaussRaw kh kw h w) /
          gaussSumRaw kh kw := (Finset.sum_div _ _ _).symm
    _ = gaussSumRaw kh kw / gaussSumRaw kh kw := by rw [gaussSumRaw]
    _ = 1 := div_self (gaussSumRaw_pos hh hw).ne'

lemma atan2_mem_Ioc (y x : ℝ) : -Real.pi < atan2 y x ∧ atan2 y x ≤ Real.pi := by
  have hpi := Real.pi_pos
  unfold atan2
  split_ifs with hx hx' hy hy' hy''
  · have h1 := Real.arctan_lt_pi_div_two (y / x)
    have h2 := Real.neg_pi_div_two_lt_arctan (y / x)
    constructor <;> linarith
  · have h1 : Real.arctan (y / x) ≤ 0 := by
      have hd : y / x ≤ 0 := div_nonpos_iff.mpr (Or.inl ⟨hy, hx'.le⟩)
      have := Real.arctan_strictMono.monotone hd
      rwa [Real.arctan_zero] at this
    have h2 := Real.neg_pi_div_two_lt_arctan (y / x)
    constructor <;> linarith
  · have h1 : 0 < Real.arctan (y / x) := by
      have hd : 0 < y / x := div_pos_iff.mpr (Or.inr ⟨by linarith, hx'⟩)
      have := Real.arctan_strictMono hd
      rwa [Real.arctan_zero] at this
    have h2 := Real.arctan_lt_pi_div_two (y / x)
    constructor <;> linarith
  · constructor <;> linarith
  · constructor <;> linarith
  · constructor <;> linarith

lemma atan2_zero_one : atan2 0 1 = 0 := by
  unfold atan2
  rw [if_pos (by norm_num : (0 : ℝ) < 1)]
  norm_num [Real.arctan_zero]

lemma atan2_one_zero : atan2 1 0 = Real.pi / 2 := by
  unfold atan2
  rw [if_neg (by norm_num), if_neg (by norm_num), if_pos (by norm_num : (0 : ℝ) < 1)]

lemma atan2_zero_neg_one : atan2 0 (-1) = Real.pi := by
  unfold atan2
  rw [if_neg (by norm_num), if_pos (by norm_num : (-1 : ℝ) < 0),
    if_pos (le_refl (0 : ℝ))]
  norm_num [Real.arctan_zero]

lemma alphaFillAt_neg180_neg90 {angle : ℝ} (h0 : -180 ≤ angle) (h1 : angle < -90)
    (prev : Fin 4 → ℝ) :
    alphaFillAt angle prev = fun i => if i = 2 then 1 - (angle + 180) / 90
      else if i = 3 then (angle + 180) / 90 else prev i := by
  unfold alphaFillAt
  rw [if_pos ⟨h0, h1⟩]

lemma alphaFillAt_0_90 {angle : ℝ} (h0 : 0 ≤ angle) (h1 : angle < 90)
    (prev : Fin 4 → ℝ) :
    alphaFillAt angle prev = fun i => if i = 0 then 1 - angle / 90
      else if i = 1 then angle / 90 else prev i := by
  unfold alphaFillAt
  rw [if_neg (by rintro ⟨h2, h3⟩; linarith), if_neg (by rintro ⟨h2, h3⟩; linarith),
    if_pos ⟨h0, h1⟩]

lemma alphaFillAt_90_180 {angle : ℝ} (h0 : 90 ≤ angle) (h1 : angle ≤ 180)
    (prev : Fin 4 → ℝ) :
    alphaFillAt angle prev = fun i => if i = 1 then 1 - (angle - 90) / 90
      else if i = 2 then (angle - 90) / 90 else prev i := by
  unfold alphaFillAt
  rw [if_neg (by rintro ⟨h2, h3⟩; linarith), if_neg (by rintro ⟨h2, h3⟩; linarith),
    if_neg (by rintro ⟨h2, h3⟩; linarith), if_pos ⟨h0, h1⟩]

lemma gaussConvAt_const_neg_one :
    gaussConvAt 2 1 0 2 2 (fun _ _ => (-1 : ℝ)) 0 0 = -1 := by
  have hsum := @sum_gaussKernel_eq_one 2 2 (by norm_num) (by norm_num)
  have ht2 : ((2 : ℤ)).toNat = 2 := rfl
  unfold gaussConvAt
  norm_num [Nat.Ico_zero_eq_range, Finset.sum_neg_distrib, ht2, hsum]

lemma gaussConvAt_const_zero :
    gaussConvAt 2 1 0 2 2 (fun _ _ => (0 : ℝ)) 0 0 = 0 := by
  unfold gaussConvAt
  simp

lemma specRotQ_two (f : ℕ → ℕ → ℝ) : specRotQ 2 2 f = fun h w => f (1 - h) (1 - w) := rfl

lemma exSmooth_zero : exSmooth 0 = -1 := by
  have h : exGradPlane 0 = fun _ _ => (-1 : ℝ) := by
    funext a b
    simp [exGradPlane]
  unfold exSmooth
  rw [h]
  exact gaussConvAt_const_neg_one

lemma exSmooth_one : exSmooth 1 = 0 := by
  have h : exGradPlane 1 = fun _ _ => (0 : ℝ) := by
    funext a b
    simp [exGradPlane]
  unfold exSmooth
  rw [h]
  exact gaussConvAt_const_zero

lemma exOrient_eq_pi : exOrient = Real.pi := by
  unfold exOrient
  rw [exSmooth_one, exSmooth_zero]
  exact atan2_zero_neg_one

lemma exAlpha_vals : exAlpha 0 = 0 ∧ exAlpha 1 = 0 ∧ exAlpha 2 = 1 ∧ exAlpha 3 = 0 := by
  have hang : angleDeg exOrient = 180 := by
    rw [exOrient_eq_pi]
    unfold angleDeg
    rw [mul_div_assoc, div_self Real.pi_ne_zero, mul_one]
  unfold exAlpha
  rw [hang, alphaFillAt_90_180 (by norm_num) (by norm_num)]
  have f01 : (0 : Fin 4) ≠ 1 := by decide
  have f02 : (0 : Fin 4) ≠ 2 := by decide
  have f21 : (2 : Fin 4) ≠ 1 := by decide
  have f31 : (3 : Fin 4) ≠ 1 := by decide
  have f32 : (3 : Fin 4) ≠ 2 := by decide
  norm_num [f01, f02, f21, f31, f32]

lemma denseConvAt_exKernel_base :
    denseConvAt 2 1 0 2 2 1 exKernel exInput 0 0 0 = 0 := by
  unfold denseConvAt exKernel exInput padRead
  norm_num [Finset.sum_range_succ]

lemma denseConvAt_exKernel_rot2 :
    denseConvAt 2 1 0 2 2 1 (fun co2 ci => specRotQ 2 2 (exKernel co2 ci))
      exInput 0 0 0 = 5 := by
  have hr : (fun co2 ci => specRotQ 2 2 (exKernel co2 ci)) =
      fun co2 ci h w => exKernel co2 ci (1 - h) (1 - w) := by
    funext co2 ci
    exact specRotQ_two _
  rw [hr]
  unfold denseConvAt exKernel exInput padRead
  norm_num [Finset.sum_range_succ]

/-! ### Claim theorems -/

/-- C6: for every positive square kernel size `K`, every entry of the normalized
Gaussian stencil is a common positive multiple of
`exp(-((h - K/2)^2 + (w - K/2)^2) / (2*sigma^2))` with `sigma = (K + K)/12`
(the code anchors the offsets at the continuous center `K/2` of the `K x K` grid),
and the normalized entries sum to exactly 1.  The stencil is a pure function of the
geometry (`gaussKernel` takes nothing else), built once at setup. -/
theorem gauss_stencil_gaussian_normalized (K : ℕ) (hK : 0 < K) :
    (∃ c : ℝ, 0 < c ∧ ∀ h w : ℕ,
        gaussKernel K K h w =
          c * Real.exp (-(((h : ℝ) - (K : ℝ) / 2) ^ 2 + ((w : ℝ) - (K : ℝ) / 2) ^ 2) /
              (2 * (((K : ℝ) + (K : ℝ)) / 12) ^ 2))) ∧
    ∑ h in Finset.range K, ∑ w in Finset.range K, gaussKernel K K h w = 1 := by
  constructor
  · refine ⟨(2 * 3.14159 * gaussSigma K K * gaussSigma K K * gaussSumRaw K K)⁻¹, ?_, ?_⟩
    · exact inv_pos.mpr (mul_pos (gaussDenom_pos hK) (gaussSumRaw_pos hK hK))
    · intro h w
      have hD := (@gaussDenom_pos K K hK).ne'
      have hS := (gaussSumRaw_pos hK hK).ne'
      have hsig : (2 * gaussSigma K K * gaussSigma K K)
          = 2 * (((K : ℝ) + (K : ℝ)) / 12) ^ 2 := by
        unfold gaussSigma; ring
      unfold gaussKernel gaussRaw
      rw [hsig]
      field_simp
  · exact sum_gaussKernel_eq_one hK hK

/-- Witness for C6 at the concrete kernel size 3. -/
theorem gauss_stencil_gaussian_normalized_witness :
    (0 < 3) ∧
    ((∃ c : ℝ, 0 < c ∧ ∀ h w : ℕ,
        gaussKernel 3 3 h w =
          c * Real.exp (-(((h : ℝ) - (3 : ℝ) / 2) ^ 2 + ((w : ℝ) - (3 : ℝ) / 2) ^ 2) /
              (2 * (((3 : ℝ) + (3 : ℝ)) / 12) ^ 2))) ∧
      ∑ h in Finset.range 3, ∑ w in Finset.range 3, gaussKernel 3 3 h w = 1) :=
  ⟨by norm_num, by exact_mod_cast gauss_stencil_gaussian_normalized 3 (by norm_num)⟩

/-- C2: evaluation of the rotated-kernel index arithmetic.  Quadrant 0 is the identity
permutation of the `3 x 3` plane as the claim states, but the quadrant-1 (90-degree)
mapping applied at destination position `(h, w) = (0, 2)` reads flat index
`2*3 + (3 - 0) = 9`, which is outside the `3 x 3 = 9`-entry kernel plane — the
mapping is not an in-bounds index permutation (the code uses `K - h` where a true
rotation needs `K - 1 - h`), so the claimed in-bounds property and the four-fold
90-degree round trip fail. -/
theorem rotation_index_identity_and_out_of_bounds :
    (∀ h : Fin 3, ∀ w : Fin 3, rotIndex 3 0 h.val w.val = h.val * 3 + w.val) ∧
    rotIndex 3 1 0 2 = 3 * 3 ∧ ¬ rotIndex 3 1 0 2 < 3 * 3 := by decide

/-- C9: after `LayerSetUp` on the reload path (pre-existing parameter blobs),
`intermediate_kernels_` is left empty — it holds 0 tensors, not `num_rotations_ = 4`,
and the index 3 that `Reshape`'s rotated-kernel fill dereferences does not exist —
while the fresh-initialization path does leave 4 copies of the weight blob. -/
theorem intermediate_kernels_empty_on_reload :
    (setupIntermediateKernels 4 true (0 : ℕ)).length = 0 ∧
    (setupIntermediateKernels 4 true (0 : ℕ)).get? 3 = none ∧
    (setupIntermediateKernels 4 false (0 : ℕ)).length = 4 := by decide

/-- C8: whenever the gradient-field bottom does not have exactly 2 channels, or the
two bottoms disagree in num, height or width, `Reshape` fails with a descriptive
shape error and produces no top shapes (the checks precede the top shaping, and an
`error` result carries no tops). -/
theorem reshape_rejects_shape_mismatch (ch no k s p : ℕ) (b0 b1 : BlobShape)
    (hbad : b1.c ≠ 2 ∨ b0.n ≠ b1.n ∨ b0.h ≠ b1.h ∨ b0.w ≠ b1.w) :
    (∃ msg, reshapeTops ch no k s p b0 b1 = Except.error msg) ∧
    ∀ tops, reshapeTops ch no k s p b0 b1 ≠ Except.ok tops := by
  unfold reshapeTops
  split_ifs with h1 h2 h3 h4 h5
  · exact ⟨⟨_, rfl⟩, fun tops ht => nomatch ht⟩
  · exact ⟨⟨_, rfl⟩, fun tops ht => nomatch ht⟩
  · exact ⟨⟨_, rfl⟩, fun tops ht => nomatch ht⟩
  · exact ⟨⟨_, rfl⟩, fun tops ht => nomatch ht⟩
  · exact ⟨⟨_, rfl⟩, fun tops ht => nomatch ht⟩
  · rcases hbad with hb | hb | hb | hb
    · exact absurd hb h5
    · exact absurd hb h4
    · exact absurd hb h2
    · exact absurd hb h3

/-- Witness for C8: a gradient-field bottom with 3 channels is rejected. -/
theorem reshape_rejects_shape_mismatch_witness :
    (∃ msg, reshapeTops 1 1 3 1 0 ⟨1, 1, 5, 5⟩ ⟨1, 3, 5, 5⟩ = Except.error msg) ∧
    ∀ tops, reshapeTops 1 1 3 1 0 ⟨1, 1, 5, 5⟩ ⟨1, 3, 5, 5⟩ ≠ Except.ok tops :=
  reshape_rejects_shape_mismatch 1 1 3 1 0 ⟨1, 1, 5, 5⟩ ⟨1, 3, 5, 5⟩ (Or.inl (by decide))

/-- C10 counterexample: with a primary input of 3 channels (an admissible
configuration: `bottom[1]` still has 2 channels and nothing ties `channels_` to 2),
the smoother's channel loop — bounded by `channels_`, not by the gradient field's
channel count — walks onto input plane `0 * 3 + 2 = 2`, outside the gradient-field
blob's `1 * 2` planes, so not all of its input reads stay within that tensor. -/
theorem gauss_helper_read_planes_oob_counterexample :
    ¬ ∀ p ∈ gaussHelperReadPlanes 1 3, p < 1 * 2 := by decide

/-- C10 amended: the Gaussian smoother's input reads stay within the two-channel
gradient-field blob (`N * 2` planes) if and only if the primary input channel count
`channels_` — the loop bound the code actually uses — is at most 2; in particular the
loop visits exactly the gradient field's 2 channels only when `channels_ = 2`. -/
theorem gauss_helper_reads_in_bounds_iff_channels_le_two (N ch : ℕ) (hN : 0 < N) :
    (∀ p ∈ gaussHelperReadPlanes N ch, p < N * 2) ↔ ch ≤ 2 := by
  constructor
  · intro hall
    by_contra hgt
    push_neg at hgt
    have hmem : (N - 1) * ch + 2 ∈ gaussHelperReadPlanes N ch := by
      unfold gaussHelperReadPlanes
      refine List.mem_flatMap.mpr ⟨N - 1, List.mem_range.mpr (by omega),
        List.mem_map.mpr ⟨2, List.mem_range.mpr hgt, rfl⟩⟩
    have hlt := hall _ hmem
    have h3 : 3 ≤ ch := hgt
    have hmul : (N - 1) * 3 ≤ (N - 1) * ch := Nat.mul_le_mul_left _ h3
    omega
  · intro hle p hp
    unfold gaussHelperReadPlanes at hp
    obtain ⟨n, hn, hp2⟩ := List.mem_flatMap.mp hp
    obtain ⟨c, hc, rfl⟩ := List.mem_map.mp hp2
    have hn' := List.mem_range.mp hn
    have hc' := List.mem_range.mp hc
    have hmul : n * ch ≤ n * 2 := Nat.mul_le_mul_left _ hle
    omega

/-- Witness for C10's amended theorem at `N = 1`, `channels_ = 2`. -/
theorem gauss_helper_reads_in_bounds_iff_channels_le_two_witness :
    (0 < 1) ∧ ((∀ p ∈ gaussHelperReadPlanes 1 2, p < 1 * 2) ↔ 2 ≤ 2) :=
  ⟨by decide, gauss_helper_reads_in_bounds_iff_channels_le_two 1 2 (by decide)⟩

/-- C4 counterexample: at a top-left border output location (kernel 2, stride 1,
pad 1, a 2x2 input plane of ones, output location (0, 0)) the un-clipped window
start is -1, and the code anchors the Gaussian at the CLIPPED start: it multiplies
the surviving input pixel (0,0) by stencil entry (0,0), whereas the claimed
"offsets relative to the window's un-clipped start" formula would use stencil entry
(1,1); the two stencil entries differ, so the claimed formula does not describe the
code's output. -/
theorem gauss_border_stencil_anchor_counterexample :
    gaussConvAt 2 1 1 2 2 (fun _ _ => 1) 0 0 ≠
      gaussConvAtSpecStencil 2 1 1 2 2 (fun _ _ => 1) 0 0 := by
  have hS := @gaussSumRaw_pos 2 2 (by norm_num) (by norm_num)
  have hD := @gaussDenom_pos 2 2 (by norm_num)
  have htn : ((-1 : ℤ)).toNat = 0 := rfl
  have hL : gaussConvAt 2 1 1 2 2 (fun _ _ => 1) 0 0 = gaussKernel 2 2 0 0 := by
    unfold gaussConvAt
    norm_num [htn, Nat.Ico_zero_eq_range, Finset.sum_range_one]
  have hR : gaussConvAtSpecStencil 2 1 1 2 2 (fun _ _ => 1) 0 0 = gaussKernel 2 2 1 1 := by
    unfold gaussConvAtSpecStencil
    norm_num [htn, Nat.Ico_zero_eq_range, Finset.sum_range_one]
  rw [hL, hR]
  have hraw : gaussRaw 2 2 0 0 < gaussRaw 2 2 1 1 := by
    unfold gaussRaw
    rw [div_lt_div_iff_of_pos_right hD]
    apply Real.exp_lt_exp.mpr
    unfold gaussSigma
    norm_num
  exact ne_of_lt ((div_lt_div_iff_of_pos_right hS).mpr hraw)

/-- C4 amended: the Gaussian smoother output at each location is the sum of
`gaussian[dy, dx] * input[h, w]` over the receptive window clipped to valid input
coordinates — no synthetic zero-padded values are summed (the output depends only on
the input's values at valid coordinates), and in the interior (window fully inside)
it is exactly the centered stencil sum — but the stencil offsets `(dy, dx)` are
taken relative to the window's CLIPPED start (`max(start, 0)`), not the un-clipped
start: at borders a truncated, shifted (top-left anchored), non-renormalized portion
of the Gaussian is applied. -/
theorem gauss_smoother_clipped_window_spec (K stride pad H W : ℕ)
    (inPlane g : ℕ → ℕ → ℝ) (ph pw : ℕ)
    (hg : ∀ h w : ℕ, h < H → w < W → inPlane h w = g h w) :
    gaussConvAt K stride pad H W inPlane ph pw =
      gaussConvAt K stride pad H W g ph pw ∧
    (pad ≤ ph * stride → pad ≤ pw * stride →
      ph * stride - pad + K ≤ H → pw * stride - pad + K ≤ W →
      gaussConvAt K stride pad H W inPlane ph pw =
        ∑ dy in Finset.range K, ∑ dx in Finset.range K,
          gaussKernel K K dy dx *
            inPlane (ph * stride - pad + dy) (pw * stride - pad + dx)) := by
  constructor
  · unfold gaussConvAt
    refine Finset.sum_congr rfl fun h hh => Finset.sum_congr rfl fun w hw => ?_
    have hhH : h < H := by
      have h1 := (Finset.mem_Ico.mp hh).2
      have h2 : (min (((ph * stride : ℕ) : ℤ) - (pad : ℤ) + K) (H : ℤ)).toNat ≤ H := by
        omega
      omega
    have hwW : w < W := by
      have h1 := (Finset.mem_Ico.mp hw).2
      have h2 : (min (((pw * stride : ℕ) : ℤ) - (pad : ℤ) + K) (W : ℤ)).toNat ≤ W := by
        omega
      omega
    rw [hg h w hhH hwW]
  · intro hph hpw hKH hKW
    unfold gaussConvAt
    set a := ph * stride with ha
    set b := pw * stride with hb
    have e1 : (((a : ℤ) - (pad : ℤ))).toNat = a - pad := by omega
    have e2 : (((b : ℤ) - (pad : ℤ))).toNat = b - pad := by omega
    have e3 : (min ((a : ℤ) - (pad : ℤ) + K) (H : ℤ)).toNat = (a - pad) + K := by omega
    have e4 : (min ((b : ℤ) - (pad : ℤ) + K) (W : ℤ)).toNat = (b - pad) + K := by omega
    simp only [e1, e2, e3, e4]
    rw [Finset.sum_Ico_eq_sum_range]
    simp only [Nat.add_sub_cancel_left]
    refine Finset.sum_congr rfl fun dy _ => ?_
    rw [Finset.sum_Ico_eq_sum_range]
    simp only [Nat.add_sub_cancel_left]

/-- Witness for C4's amended theorem: kernel 2, stride 1, pad 0, a 2x2 plane of
ones, output location (0, 0) (an interior window). -/
theorem gauss_smoother_clipped_window_spec_witness :
    (∀ h w : ℕ, h < 2 → w < 2 →
      (fun _ _ => (1 : ℝ)) h w = (fun _ _ => (1 : ℝ)) h w) ∧
    (gaussConvAt 2 1 0 2 2 (fun _ _ => 1) 0 0 =
        gaussConvAt 2 1 0 2 2 (fun _ _ => 1) 0 0 ∧
      (0 ≤ 0 * 1 → 0 ≤ 0 * 1 → 0 * 1 - 0 + 2 ≤ 2 → 0 * 1 - 0 + 2 ≤ 2 →
        gaussConvAt 2 1 0 2 2 (fun _ _ => 1) 0 0 =
          ∑ dy in Finset.range 2, ∑ dx in Finset.range 2,
            gaussKernel 2 2 dy dx *
              (fun _ _ => (1 : ℝ)) (0 * 1 - 0 + dy) (0 * 1 - 0 + dx))) :=
  ⟨fun _ _ _ _ => rfl,
    gauss_smoother_clipped_window_spec 2 1 0 2 2 (fun _ _ => 1) (fun _ _ => 1) 0 0
      (fun _ _ _ _ => rfl)⟩

/-- C7: for every batch item and spatial location, the orientation map holds the
four-quadrant arctangent of (channel 1 = smoothed vertical gradient, channel 0 =
smoothed horizontal gradient) of `top[2]`, its value lies in `(-pi, pi]`, and the
side output `top[1]` carries the sine of that angle in channel 0 and the cosine in
channel 1; the convention has angle 0 on the positive horizontal axis and grows
counter-clockwise (`atan2 0 1 = 0`, `atan2 1 0 = pi/2`, `atan2 0 (-1) = pi`). -/
theorem orientation_atan2_sin_cos_spec (top2 : ℕ → ℕ → ℕ → ℕ → ℝ) (n h w : ℕ) :
    orientationMapAt top2 n h w = atan2 (top2 n 1 h w) (top2 n 0 h w) ∧
    -Real.pi < orientationMapAt top2 n h w ∧ orientationMapAt top2 n h w ≤ Real.pi ∧
    sincosTop1At top2 n 0 h w = Real.sin (orientationMapAt top2 n h w) ∧
    sincosTop1At top2 n 1 h w = Real.cos (orientationMapAt top2 n h w) ∧
    atan2 0 1 = 0 ∧ atan2 1 0 = Real.pi / 2 ∧ atan2 0 (-1) = Real.pi := by
  obtain ⟨hlo, hhi⟩ := atan2_mem_Ioc (top2 n 1 h w) (top2 n 0 h w)
  exact ⟨rfl, hlo, hhi, by simp [sincosTop1At], by simp [sincosTop1At],
    atan2_zero_one, atan2_one_zero, atan2_zero_neg_one⟩

/-- C3: evaluation of the alpha-field fill across two forward passes at one location.
On the first pass (buffer still zero-initialized) the invariant holds: at angle 45
the active pair (0,1) gets weights 1/2, 1/2 and the sum is 1, and the boundary angles
90 and 180 resolve to full weight 1 on the channel whose reference orientation they
equal.  But the fill never zeroes the buffer and assigns only the bracket's two
channels, so on a second pass whose angle moved from 45 to -135 the two stale
channels survive and the four alpha channels sum to 2, not 1 — the claimed
every-forward-pass invariant fails. -/
theorem alpha_field_stales_across_passes :
    (∑ i, alphaFillAt 45 (fun _ => 0) i) = 1 ∧
    alphaFillAt 45 (fun _ => 0) 0 = 1 / 2 ∧
    alphaFillAt 45 (fun _ => 0) 1 = 1 / 2 ∧
    alphaFillAt 45 (fun _ => 0) 2 = 0 ∧
    alphaFillAt 45 (fun _ => 0) 3 = 0 ∧
    alphaFillAt 90 (fun _ => 0) 1 = 1 ∧
    alphaFillAt 90 (fun _ => 0) 2 = 0 ∧
    alphaFillAt 180 (fun _ => 0) 2 = 1 ∧
    (∑ i, alphaFillAt (-135) (alphaFillAt 45 (fun _ => 0)) i) = 2 := by
  have e45 := @alphaFillAt_0_90 45 (by norm_num) (by norm_num) (fun _ => 0)
  have e90 := @alphaFillAt_90_180 90 (by norm_num) (by norm_num) (fun _ => 0)
  have e180 := @alphaFillAt_90_180 180 (by norm_num) (by norm_num) (fun _ => 0)
  have e135 := @alphaFillAt_neg180_neg90 (-135) (by norm_num) (by norm_num)
    (alphaFillAt 45 (fun _ => 0))
  rw [e45] at e135
  rw [e45, e90, e180, e135]
  have f20 : (2 : Fin 4) ≠ 0 := by decide
  have f21 : (2 : Fin 4) ≠ 1 := by decide
  have f30 : (3 : Fin 4) ≠ 0 := by decide
  have f31 : (3 : Fin 4) ≠ 1 := by decide
  norm_num [Fin.sum_univ_four, f20, f21, f30, f31]

/-- C1: evaluation of the primary-output write on a concrete forward pass (one batch
item, one input channel, 2x2 input with a 5 at (1,1), 2x2 kernel with its weight at
(0,0), stride 1, pad 0, no bias, constant gradient field pointing along the negative
horizontal axis).  The code's own pipeline yields orientation pi, hence alpha weight
1 on the 180-degree rotation, so the claimed alpha-weighted accumulation of the four
rotated-kernel responses equals the 180-degree-rotated kernel's response, 5; but the
value actually written to `top[0]` is the plain convolution with the un-rotated base
kernel, 0 — the blend loop's results are stored in a local that is never read, and
the write that follows the "Sum up all four and put in top" comment is a plain
`forward_cpu_gemm` with the base weight. -/
theorem forward_primary_output_not_blended :
    forwardTop0At 2 1 0 2 2 1 exKernel (fun _ => 0) false exInput 0 0 0 = 0 ∧
    specBlendTop0At 2 1 0 2 2 1 exKernel (fun _ => 0) false exInput exAlpha 0 0 0 = 5 := by
  constructor
  · unfold forwardTop0At
    rw [denseConvAt_exKernel_base]
    norm_num
  · unfold specBlendTop0At
    rw [Fin.sum_univ_four]
    obtain ⟨a0, a1, a2, a3⟩ := exAlpha_vals
    rw [a0, a1, a2, a3]
    have hv2 : ((2 : Fin 4)).val = 2 := rfl
    rw [hv2, denseConvAt_exKernel_rot2]
    norm_num

/-- C5: evaluation of the backward bias-gradient accumulation.  With 3 tops (as this
layer shapes), one batch item, one output channel and one spatial position, a
gradient of 7 placed only on the side output `top[1]` flows into the bias gradient
(the loop runs over all tops), giving 7 where the claimed primary-only accumulation
gives 0; moreover the loop's `bottom[i]`/`propagate_down[i]` accesses at top index 2
are outside the layer's 2 bottoms, so the weight/input-gradient adjoints are not the
claimed pairing with the primary top either. -/
theorem backward_bias_grad_includes_side_tops :
    codeBiasGrad 3 1 1 1 (fun i _ => if i = 1 then 7 else 0) 0 = 7 ∧
    specBiasGrad 1 1 1 (fun i _ => if i = 1 then 7 else 0) 0 = 0 ∧
    ¬ backwardBottomAccessOk 3 2 := by
  refine ⟨?_, ?_, ?_⟩
  · unfold codeBiasGrad
    norm_num [Finset.sum_range_succ]
  · unfold specBiasGrad
    norm_num
  · intro hok
    have h2 := hok 2 (by norm_num)
    omega

end GradOrientConv
